import Mathlib

/-!
Verification of the playback-controller core of a terminal music player
(source: src/app.rs, src/ui.rs).

The application state and its transport operations are shallowly embedded:
the App struct becomes the structure AppState, rodio's Sink becomes a small
record of the observable device state (queued sources, paused flag, playback
position in seconds), file paths become strings, and the two worker threads
spawned per song (the stream-feeder audio thread and the spectrum-analyzer
thread) are tracked by generation numbers so that spawn/join behaviour is
visible in the model.  Decoding success and the outcome of Sink::try_seek
depend on the outside world, so they are passed in as oracles (a predicate
on paths, resp. a function from seek targets to an optional error message).

The spectrum-analysis arithmetic (windowing, DFT, magnitude in decibels,
NaN/infinity normalisation) is embedded over the real numbers extended with
IEEE-style special values (the RFloat type); rounding of f32 arithmetic is
idealised away, while the exceptional values that the code explicitly
normalises (NaN, plus/minus infinity from log10 of zero) are modelled
exactly.
-/

/-- Mirrors enum InputMode in app.rs. -/
inductive MInputMode where
  | normal : MInputMode
  | editing : MInputMode
deriving DecidableEq

/-- Observable state of a rodio Sink: number of queued sources (empty()
is queued = 0), the paused flag, and the playback position in seconds. -/
structure SinkState where
  queued : Nat
  paused : Bool
  pos : Nat
deriving DecidableEq

/-- Shallow embedding of struct App (app.rs lines 60-73).  Paths are
strings.  The fields audioThreads and analyzerThreads track the
generation numbers of worker threads that have been spawned and not yet
joined (the code stores only the feeder handle in audio_thread_handle;
the analyzer thread handle is discarded at spawn).  nextGen is the next
fresh generation number. -/
structure AppState where
  input : String
  inputMode : MInputMode
  playlist : List String
  search_results : List String
  sink : Option SinkState
  current_song_path : Option String
  selected_song_index : Option Nat
  is_playing : Bool
  audio_thread_handle : Option Nat
  audioThreads : List Nat
  analyzerThreads : List Nat
  stopFlag : Bool
  nextGen : Nat
deriving DecidableEq

/-- Character-list prefix test, auxiliary to strContains. -/
def prefCheck : List Char → List Char → Bool
  | [], _ => true
  | _ :: _, [] => false
  | c :: cs, d :: ds => c = d && prefCheck cs ds

/-- Character-list infix test, auxiliary to strContains. -/
def infixCheck (n : List Char) : List Char → Bool
  | [] => n.isEmpty
  | d :: ds => prefCheck n (d :: ds) || infixCheck n ds

/-- Embedding of Rust str::contains(needle) used for the search filter and
for the "end of stream" test on seek errors. -/
def strContains (hay needle : String) : Bool :=
  infixCheck needle.toList hay.toList

/-- Embedding of Iterator::position(|s| s == p): index of the first
occurrence of p, or none. -/
def myFindIdx (p : String) : List String → Option Nat
  | [] => none
  | x :: t => if x = p then some 0 else (myFindIdx p t).map (· + 1)

/-- The active selection list: the playlist when the search input is
empty, otherwise the stored search results (the pattern repeated in
play_selected_song, next_song, previous_song, select_next,
select_previous and ui.rs). -/
def activeList (a : AppState) : List String :=
  if a.input = "" then a.playlist else a.search_results

/-- Selection-cursor invariant of the spec: on a non-empty active list the
cursor is a valid index, on an empty active list it is absent. -/
def cursorOk (a : AppState) : Bool :=
  match a.selected_song_index with
  | none => (activeList a).isEmpty
  | some i => decide (i < (activeList a).length)

/-- Embedding of App::play_pause (app.rs lines 125-135): guarded only by
sink existence; toggles the sink paused flag and mirrors it into
is_playing. -/
def play_pause (a : AppState) : AppState :=
  match a.sink with
  | none => a
  | some s =>
      if s.paused then
        { a with sink := some { s with paused := false }, is_playing := true }
      else
        { a with sink := some { s with paused := true }, is_playing := false }

/-- Embedding of App::is_seekable (app.rs lines 137-139): a sink exists
and its queue is non-empty. -/
def is_seekable (a : AppState) : Bool :=
  match a.sink with
  | none => false
  | some s => !(s.queued == 0)

/-- Result of a seek operation: the possibly updated state, the target
position actually passed to try_seek (none when no seek was attempted),
and the error surfaced to the user, if any. -/
structure SeekOutcome where
  state : AppState
  target : Option Nat
  surfaced : Option String
deriving DecidableEq

/-- Embedding of App::seek_backward (app.rs lines 155-171).  seekRes is
the oracle for Sink::try_seek: none means success, some msg a failure
with message msg.  An error message containing "end of stream" is
swallowed; any other error is surfaced. -/
def seek_backward (seekRes : Nat → Option String) (a : AppState) : SeekOutcome :=
  if is_seekable a then
    match a.sink with
    | none => ⟨a, none, none⟩
    | some s =>
        let newPos := if s.pos > 5 then s.pos - 5 else 0
        match seekRes newPos with
        | none => ⟨{ a with sink := some { s with pos := newPos } }, some newPos, none⟩
        | some e =>
            if strContains e "end of stream" then ⟨a, some newPos, none⟩
            else ⟨a, some newPos, some e⟩
  else ⟨a, none, none⟩

/-- Embedding of App::seek_forward (app.rs lines 141-153). -/
def seek_forward (seekRes : Nat → Option String) (a : AppState) : SeekOutcome :=
  if is_seekable a then
    match a.sink with
    | none => ⟨a, none, none⟩
    | some s =>
        let newPos := s.pos + 5
        match seekRes newPos with
        | none => ⟨{ a with sink := some { s with pos := newPos } }, some newPos, none⟩
        | some e =>
            if strContains e "end of stream" then ⟨a, some newPos, none⟩
            else ⟨a, some newPos, some e⟩
  else ⟨a, none, none⟩

/-- Embedding of App::play_song_by_path (app.rs lines 187-273).  dOk is
the decode oracle: dOk p is true when File::open + Decoder::new succeed
for path p.  Returns the new state and a success flag (false models the
early return of an Err through the ? operator; in that case the
mutations already performed on self persist, as in the Rust code).
Order of effects, as in the source: if a sink exists, stop and clear it,
signal and join the tracked feeder thread, reset the stop flag, then try
to open/decode; on success spawn a fresh generation's feeder (tracked)
and analyzer (untracked: its handle is discarded and its loop has no
cancellation check, so it stays in analyzerThreads forever), append to
the sink, play, and record the new current song.  Without a sink the
body is skipped and Ok is returned. -/
def play_song_by_path (dOk : String → Bool) (p : String) (a : AppState) :
    AppState × Bool :=
  match a.sink with
  | none => (a, true)
  | some s =>
      let s1 : SinkState := { s with queued := 0, paused := true }
      let joined : List Nat :=
        match a.audio_thread_handle with
        | some g => a.audioThreads.filter (fun x => x ≠ g)
        | none => a.audioThreads
      let a1 : AppState :=
        { a with sink := some s1, audio_thread_handle := none,
                 audioThreads := joined, stopFlag := false }
      if dOk p then
        let g := a1.nextGen
        ({ a1 with
             audio_thread_handle := some g,
             audioThreads := g :: a1.audioThreads,
             analyzerThreads := g :: a1.analyzerThreads,
             nextGen := g + 1,
             sink := some { s1 with queued := 1, paused := false },
             current_song_path := some p,
             is_playing := true }, true)
      else (a1, false)

/-- Embedding of App::play_selected_song (app.rs lines 173-185). -/
def play_selected_song (dOk : String → Bool) (a : AppState) : AppState × Bool :=
  let song : Option String :=
    if a.input = "" then
      a.selected_song_index.bind (fun i => a.playlist[i]?)
    else
      a.selected_song_index.bind (fun i => a.search_results[i]?)
  match song with
  | some p => play_song_by_path dOk p a
  | none => (a, true)

/-- Embedding of App::next_song (app.rs lines 275-301). -/
def next_song (dOk : String → Bool) (a : AppState) : AppState × Bool :=
  let l := activeList a
  if l.isEmpty then (a, true)
  else
    let ni : Nat :=
      match a.current_song_path.bind (fun p => myFindIdx p l) with
      | some i => (i + 1) % l.length
      | none => 0
    let r := play_song_by_path dOk (l.getD ni "") a
    if r.2 then ({ r.1 with selected_song_index := some ni }, true) else r

/-- Embedding of App::previous_song (app.rs lines 303-335). -/
def previous_song (dOk : String → Bool) (a : AppState) : AppState × Bool :=
  let l := activeList a
  if l.isEmpty then (a, true)
  else
    let pi : Nat :=
      match a.current_song_path.bind (fun p => myFindIdx p l) with
      | some i => if i = 0 then l.length - 1 else i - 1
      | none => 0
    let r := play_song_by_path dOk (l.getD pi "") a
    if r.2 then ({ r.1 with selected_song_index := some pi }, true) else r

/-- Embedding of App::select_next (app.rs lines 337-351). -/
def select_next (a : AppState) : AppState :=
  let l := activeList a
  if l.length = 0 then a
  else
    { a with
      selected_song_index := some (match a.selected_song_index with
                                   | none => 0
                                   | some i => (i + 1) % l.length) }

/-- Embedding of App::select_previous (app.rs lines 353-369). -/
def select_previous (a : AppState) : AppState :=
  let l := activeList a
  if l.length = 0 then a
  else
    { a with
      selected_song_index := some (match a.selected_song_index with
                                   | none => 0
                                   | some i => if i = 0 then l.length - 1
                                               else i - 1) }

/-- Key codes relevant to run_app's dispatch (app.rs lines 372-435). -/
inductive MKeyCode where
  | char : Char → MKeyCode
  | down : MKeyCode
  | up : MKeyCode
  | left : MKeyCode
  | right : MKeyCode
  | enter : MKeyCode
  | backspace : MKeyCode
  | esc : MKeyCode
  | other : MKeyCode
deriving DecidableEq

/-- Embedding of the key-event dispatch of run_app (app.rs lines
378-429).  Returns none when the loop returns (the q key), otherwise the
updated state. -/
def handleKey (dOk : String → Bool) (seekRes : Nat → Option String)
    (k : MKeyCode) (a : AppState) : Option AppState :=
  match a.inputMode with
  | .normal =>
      match k with
      | .char c =>
          if c = 'e' then some { a with inputMode := .editing }
          else if c = 'q' then none
          else if c = 'p' then some (play_pause a)
          else if c = 'n' then some (next_song dOk a).1
          else if c = 'b' then some (previous_song dOk a).1
          else if c = ' ' then some (play_selected_song dOk a).1
          else if c = 'c' then some { a with
            input := ""
            search_results := []
            selected_song_index := if a.playlist.isEmpty then none else some 0 }
          else some a
      | .down => some (select_next a)
      | .up => some (select_previous a)
      | .left => some (seek_backward seekRes a).state
      | .right => some (seek_forward seekRes a).state
      | _ => some a
  | .editing =>
      match k with
      | .enter =>
          let res := a.playlist.filter
            (fun p => strContains p.toLower a.input.toLower)
          some { a with
            search_results := res
            selected_song_index := if res.isEmpty then none else some 0
            inputMode := .normal }
      | .char c => some { a with input := a.input.push c }
      | .backspace => some { a with input := a.input.dropRight 1 }
      | .esc => some { a with inputMode := .normal }
      | _ => some a

/-- One iteration of the main control loop of run_app (app.rs lines
375-434): an optional key event (none models a poll timeout) is
dispatched, then the UI is redrawn (a pure read of the state).  No other
state change happens in an iteration. -/
def step (dOk : String → Bool) (seekRes : Nat → Option String)
    (ev : Option MKeyCode) (a : AppState) : Option AppState :=
  match ev with
  | none => some a
  | some k => handleKey dOk seekRes k a

/-- Initial state built by App::new (app.rs lines 76-100) for a given
scanned playlist, in the case where an output device is available
(sink present, not paused, nothing queued). -/
def mkInit (pl : List String) : AppState :=
  { input := ""
    inputMode := .normal
    playlist := pl
    search_results := []
    sink := some ⟨0, false, 0⟩
    current_song_path := none
    selected_song_index := if pl.isEmpty then none else some 0
    is_playing := false
    audio_thread_handle := none
    audioThreads := []
    analyzerThreads := []
    stopFlag := false
    nextGen := 0 }

/-- Decode oracle under which every path decodes successfully. -/
def dOkAll : String → Bool := fun _ => true

/-- Seek oracle under which every try_seek succeeds. -/
def seekOk : Nat → Option String := fun _ => none

/-- Iterated next_song, for the wrap-around law. -/
def iterNext (dOk : String → Bool) : Nat → AppState → AppState
  | 0, a => a
  | n + 1, a => iterNext dOk n (next_song dOk a).1

/-- Iterated previous_song, for the wrap-around law. -/
def iterPrev (dOk : String → Bool) : Nat → AppState → AppState
  | 0, a => a
  | n + 1, a => iterPrev dOk n (previous_song dOk a).1

/-- True for the key events that mutate the search input while in editing
mode (character insertion and backspace); these change the active
selection list without touching the cursor. -/
def editsInput (m : MInputMode) (k : MKeyCode) : Bool :=
  m == .editing &&
    (match k with
     | .char _ => true
     | .backspace => true
     | _ => false)

/-- Value domain of the analyzer arithmetic: a real number or one of the
IEEE special values that f32 operations can produce and that the code
explicitly normalises away. -/
inductive RFloat where
  | fin : ℝ → RFloat
  | posInf : RFloat
  | negInf : RFloat
  | nan : RFloat

/-- True exactly on ordinary (finite) values. -/
def RFloat.finite : RFloat → Bool
  | .fin _ => true
  | _ => false

/-- Base-10 logarithm of a finite real, with f32::log10 exceptional
behaviour: log10 of 0 is negative infinity, log10 of a negative number
is NaN. -/
noncomputable def rfLog10 (x : ℝ) : RFloat :=
  if 0 < x then .fin (Real.logb 10 x)
  else if x = 0 then .negInf
  else .nan

/-- Multiplication by the positive constant 20, on the extended domain
(the final "* 20.0" of the dB formula). -/
def rfScale20 : RFloat → RFloat
  | .fin x => .fin (20 * x)
  | .posInf => .posInf
  | .negInf => .negInf
  | .nan => .nan

/-- Embedding of the normalisation map at app.rs line 256:
if v.is_nan() or v.is_infinite() then 0.0 else v. -/
def normalizeF : RFloat → RFloat
  | .fin x => .fin x
  | .posInf => .fin 0
  | .negInf => .fin 0
  | .nan => .fin 0

/-- Hann window coefficients produced by apodize::hanning_iter(n):
w(j) = 0.5 - 0.5 cos(2 pi j / (n - 1)). -/
noncomputable def hanning (n : ℕ) (j : ℕ) : ℝ :=
  0.5 - 0.5 * Real.cos (2 * Real.pi * j / (n - 1))

/-- Windowed input handed to the FFT (app.rs lines 244-248): sample times
Hann coefficient, as a complex number with zero imaginary part. -/
noncomputable def windowed (s : ℕ → ℝ) (j : ℕ) : ℂ :=
  Complex.ofReal (s j * hanning 1024 j)

/-- Forward discrete Fourier transform of an n-point signal (the
mathematical function computed by rustfft's forward FFT). -/
noncomputable def dft (n : ℕ) (x : ℕ → ℂ) (k : ℕ) : ℂ :=
  ∑ j ∈ Finset.range n, x j * Complex.exp (-2 * Real.pi * Complex.I * j * k / n)

/-- Value of spectrum bin k published by the analyzer thread (app.rs
lines 252-257): 20 * log10(|X_k| * 2 / 1024) with NaN/infinity
normalised to 0. -/
noncomputable def spectrumBin (s : ℕ → ℝ) (k : ℕ) : RFloat :=
  normalizeF (rfScale20 (rfLog10 (Complex.abs (dft 1024 (windowed s) k) * 2 / 1024)))

/-- SpectrumFrame published for one full 1024-sample window: the first
half of the bins (app.rs line 253). -/
noncomputable def publishFrame (s : ℕ → ℝ) : List RFloat :=
  (List.range 512).map (spectrumBin s)

/-- Frames that can ever be stored in the shared spectrogram buffer: the
initial frame vec![0.0; 512] built in App::new (app.rs line 84), and the
frames published by any generation's analyzer thread.  Each store
replaces the whole vector under the mutex, so a stored frame is exactly
one of these. -/
inductive StoredFrame : List RFloat → Prop where
  | initial : StoredFrame (List.replicate 512 (RFloat.fin 0))
  | publish (s : ℕ → ℝ) : StoredFrame (publishFrame s)

/-- Shorthand for list indexing with the empty-string default, matching
the getD calls in the embedded operations. -/
def nth (l : List String) (i : Nat) : String :=
  l.getD i ""

/-- State after successfully playing song "a" from the freshly started
application with playlist ["a", "b"]. -/
def playingA : AppState :=
  (play_song_by_path dOkAll "a" (mkInit ["a", "b"])).1

/-- Decode oracle that succeeds only for the path "a" (song "b" is
undecodable). -/
def dOkOnlyA : String → Bool := fun p => p == "a"

/-- State after two successful plays in a row ("a" then "b") from the
freshly started application. -/
def playTwice : AppState × Bool :=
  play_song_by_path dOkAll "b" playingA

/-- The playingA state after the output device has drained: the queue is
empty while is_playing is still true. -/
def drainedA : AppState :=
  { playingA with sink := some ⟨0, false, 7⟩ }

/-- Freshly started application with a one-song playlist: a sink exists,
no song is loaded (the Idle state). -/
def idleApp : AppState := mkInit ["x"]

/-- idleApp after pressing the e key (enter editing mode). -/
def editModeState : AppState :=
  (handleKey dOkAll seekOk (.char 'e') idleApp).getD idleApp

/-- editModeState after typing the character x into the search input. -/
def typedState : AppState :=
  (handleKey dOkAll seekOk (.char 'x') editModeState).getD editModeState

/-- idleApp with one source queued on the sink and playback position 3
seconds: the sink is seekable and a 5-second backward seek must clamp
to 0. -/
def seekableApp : AppState := { idleApp with sink := some ⟨1, false, 3⟩ }

lemma infixCheck_nil (l : List Char) : infixCheck [] l = true := by
  cases l <;> rfl

lemma strContains_empty_needle (hay : String) : strContains hay "" = true := by
  unfold strContains
  exact infixCheck_nil hay.toList

lemma nth_mem (l : List String) (i : Nat) (h : i < l.length) : nth l i ∈ l := by
  unfold nth
  rw [List.getD_eq_getElem l "" h]
  exact List.getElem_mem h

lemma myFindIdx_lt_length (p : String) (l : List String) (j : Nat)
    (h : myFindIdx p l = some j) : j < l.length := by
  induction l generalizing j with
  | nil => simp [myFindIdx] at h
  | cons x t ih =>
      by_cases hx : x = p
      · simp [myFindIdx, hx] at h
        simp [← h]
      · simp [myFindIdx, hx] at h
        obtain ⟨j', hj', rfl⟩ := h
        have := ih j' hj'
        simp
        omega

lemma myFindIdx_of_mem (p : String) (l : List String) (h : p ∈ l) :
    ∃ j, myFindIdx p l = some j ∧ j < l.length ∧ nth l j = p := by
  induction l with
  | nil => cases h
  | cons x t ih =>
      by_cases hx : x = p
      · exact ⟨0, by simp [myFindIdx, hx], by simp, by simp [nth, hx]⟩
      · have hmem : p ∈ t := by
          cases h with
          | head => exact absurd rfl hx
          | tail _ h' => exact h'
        obtain ⟨j, hj, hjl, hnth⟩ := ih hmem
        exact ⟨j + 1, by simp [myFindIdx, hx, hj], by simp; omega,
          by simpa [nth] using hnth⟩

lemma myFindIdx_nth (l : List String) (hnd : l.Nodup) (j : Nat)
    (hj : j < l.length) : myFindIdx (nth l j) l = some j := by
  induction l generalizing j with
  | nil => simp at hj
  | cons x t ih =>
      cases j with
      | zero => simp [myFindIdx, nth]
      | succ j' =>
          have hj' : j' < t.length := by simpa using hj
          have hx : x ≠ nth t j' := by
            intro heq
            have : nth t j' ∈ t := nth_mem t j' hj'
            rw [← heq] at this
            exact (List.nodup_cons.mp hnd).1 this
          have hnth : nth (x :: t) (j' + 1) = nth t j' := by simp [nth]
          rw [hnth]
          simp only [myFindIdx]
          rw [if_neg (by exact hx)]
          rw [ih (List.nodup_cons.mp hnd).2 j' hj']
          rfl

lemma psbp_preserves_lists (dOk : String → Bool) (p : String) (a : AppState) :
    (play_song_by_path dOk p a).1.input = a.input ∧
    (play_song_by_path dOk p a).1.playlist = a.playlist ∧
    (play_song_by_path dOk p a).1.search_results = a.search_results ∧
    (play_song_by_path dOk p a).1.selected_song_index = a.selected_song_index := by
  by_cases hd : dOk p <;> cases hs : a.sink <;>
    simp [play_song_by_path, hs, hd]

lemma psbp_ok (dOk : String → Bool) (p : String) (a : AppState) (s : SinkState)
    (hs : a.sink = some s) (hd : dOk p = true) :
    (play_song_by_path dOk p a).2 = true ∧
    (play_song_by_path dOk p a).1.current_song_path = some p ∧
    (play_song_by_path dOk p a).1.sink = some ⟨1, false, s.pos⟩ := by
  simp [play_song_by_path, hs, hd]

lemma psbp_success_flag (dOk : String → Bool) (p : String) (a : AppState)
    (s : SinkState) (hs : a.sink = some s) :
    (play_song_by_path dOk p a).2 = dOk p := by
  by_cases hd : dOk p <;> simp [play_song_by_path, hs, hd]

lemma activeList_congr (a b : AppState) (h1 : b.input = a.input)
    (h2 : b.playlist = a.playlist) (h3 : b.search_results = a.search_results) :
    activeList b = activeList a := by
  simp [activeList, h1, h2, h3]

lemma cursorOk_congr (a b : AppState) (h1 : b.input = a.input)
    (h2 : b.playlist = a.playlist) (h3 : b.search_results = a.search_results)
    (h4 : b.selected_song_index = a.selected_song_index) :
    cursorOk b = cursorOk a := by
  unfold cursorOk
  rw [activeList_congr a b h1 h2 h3, h4]

lemma activeList_ne_nil_isEmpty (a : AppState) (h : activeList a ≠ []) :
    (activeList a).isEmpty = false := by
  cases hl : activeList a with
  | nil => exact absurd hl h
  | cons x t => rfl

lemma prevIdx_eq_mod (j len : Nat) (hj : j < len) :
    (if j = 0 then len - 1 else j - 1) = (j + (len - 1)) % len := by
  have hlen : 0 < len := by omega
  by_cases h0 : j = 0
  · subst h0
    rw [if_pos rfl, Nat.zero_add, Nat.mod_eq_of_lt (by omega)]
  · rw [if_neg h0]
    have hsplit : j + (len - 1) = (j - 1) + len := by omega
    rw [hsplit, Nat.add_mod_right, Nat.mod_eq_of_lt (by omega)]

lemma next_song_step (dOk : String → Bool) (a : AppState) (s : SinkState)
    (hs : a.sink = some s) (hnd : (activeList a).Nodup) (j : Nat)
    (hj : j < (activeList a).length)
    (hcur : a.current_song_path = some (nth (activeList a) j))
    (hdk : dOk (nth (activeList a) ((j + 1) % (activeList a).length)) = true) :
    (next_song dOk a).1.input = a.input ∧
    (next_song dOk a).1.playlist = a.playlist ∧
    (next_song dOk a).1.search_results = a.search_results ∧
    (next_song dOk a).1.sink = some ⟨1, false, s.pos⟩ ∧
    (next_song dOk a).1.current_song_path =
      some (nth (activeList a) ((j + 1) % (activeList a).length)) ∧
    (next_song dOk a).1.selected_song_index =
      some ((j + 1) % (activeList a).length) := by
  have hne : activeList a ≠ [] := by
    intro h0
    rw [h0] at hj
    simp at hj
  have hempty := activeList_ne_nil_isEmpty a hne
  have hfind : a.current_song_path.bind (fun p => myFindIdx p (activeList a))
      = some j := by
    rw [hcur]
    exact myFindIdx_nth (activeList a) hnd j hj
  have hok := psbp_ok dOk (nth (activeList a) ((j + 1) % (activeList a).length))
      a s hs hdk
  have hpres := psbp_preserves_lists dOk
      (nth (activeList a) ((j + 1) % (activeList a).length)) a
  simp only [nth] at hok hpres ⊢
  simp only [next_song, hempty, Bool.false_eq_true, if_false, hfind]
  rw [if_pos hok.1]
  exact ⟨hpres.1, hpres.2.1, hpres.2.2.1, hok.2.2, hok.2.1, rfl⟩

lemma previous_song_step (dOk : String → Bool) (a : AppState) (s : SinkState)
    (hs : a.sink = some s) (hnd : (activeList a).Nodup) (j : Nat)
    (hj : j < (activeList a).length)
    (hcur : a.current_song_path = some (nth (activeList a) j))
    (hdk : dOk (nth (activeList a)
      ((j + ((activeList a).length - 1)) % (activeList a).length)) = true) :
    (previous_song dOk a).1.input = a.input ∧
    (previous_song dOk a).1.playlist = a.playlist ∧
    (previous_song dOk a).1.search_results = a.search_results ∧
    (previous_song dOk a).1.sink = some ⟨1, false, s.pos⟩ ∧
    (previous_song dOk a).1.current_song_path =
      some (nth (activeList a)
        ((j + ((activeList a).length - 1)) % (activeList a).length)) ∧
    (previous_song dOk a).1.selected_song_index =
      some ((j + ((activeList a).length - 1)) % (activeList a).length) := by
  have hne : activeList a ≠ [] := by
    intro h0
    rw [h0] at hj
    simp at hj
  have hempty := activeList_ne_nil_isEmpty a hne
  have hfind : a.current_song_path.bind (fun p => myFindIdx p (activeList a))
      = some j := by
    rw [hcur]
    exact myFindIdx_nth (activeList a) hnd j hj
  have hok := psbp_ok dOk (nth (activeList a)
      ((j + ((activeList a).length - 1)) % (activeList a).length)) a s hs hdk
  have hpres := psbp_preserves_lists dOk (nth (activeList a)
      ((j + ((activeList a).length - 1)) % (activeList a).length)) a
  simp only [nth] at hok hpres ⊢
  simp only [previous_song, hempty, Bool.false_eq_true, if_false, hfind,
    prevIdx_eq_mod j (activeList a).length hj]
  rw [if_pos hok.1]
  exact ⟨hpres.1, hpres.2.1, hpres.2.2.1, hok.2.2, hok.2.1, rfl⟩

lemma iterNext_current (dOk : String → Bool) (l : List String)
    (hnd : l.Nodup) (hdk : ∀ q ∈ l, dOk q = true) :
    ∀ (k : Nat) (a : AppState) (s : SinkState) (j : Nat),
      a.sink = some s → activeList a = l → j < l.length →
      a.current_song_path = some (nth l j) →
      ∃ s2, (iterNext dOk k a).sink = some s2 ∧
        activeList (iterNext dOk k a) = l ∧
        (iterNext dOk k a).current_song_path
          = some (nth l ((j + k) % l.length)) := by
  intro k
  induction k with
  | zero =>
      intro a s j hs hal hj hcur
      simp only [iterNext]
      refine ⟨s, hs, hal, ?_⟩
      rw [hcur, Nat.add_zero, Nat.mod_eq_of_lt hj]
  | succ n ih =>
      intro a s j hs hal hj hcur
      have hlen : 0 < l.length := by omega
      have hj1 : (j + 1) % l.length < l.length := Nat.mod_lt _ hlen
      have hstep := next_song_step dOk a s hs (hal ▸ hnd) j (hal ▸ hj)
        (by rw [hal]; exact hcur)
        (by rw [hal]; exact hdk _ (nth_mem l _ hj1))
      rw [hal] at hstep
      have hal2 : activeList (next_song dOk a).1 = l := by
        rw [activeList_congr a (next_song dOk a).1 hstep.1 hstep.2.1 hstep.2.2.1]
        exact hal
      have hrec := ih (next_song dOk a).1 ⟨1, false, s.pos⟩ ((j + 1) % l.length)
        hstep.2.2.2.1 hal2 hj1 hstep.2.2.2.2.1
      obtain ⟨s2, hsink2, halrec, hcurrec⟩ := hrec
      refine ⟨s2, ?_, ?_, ?_⟩
      · simpa [iterNext] using hsink2
      · simpa [iterNext] using halrec
      · have harith : ((j + 1) % l.length + n) % l.length
            = (j + (n + 1)) % l.length := by
          rw [Nat.mod_add_mod]
          congr 1
          omega
        rw [show iterNext dOk (n + 1) a = iterNext dOk n (next_song dOk a).1
              from rfl]
        rw [hcurrec, harith]

lemma iterPrev_current (dOk : String → Bool) (l : List String)
    (hnd : l.Nodup) (hdk : ∀ q ∈ l, dOk q = true) :
    ∀ (k : Nat) (a : AppState) (s : SinkState) (j : Nat),
      a.sink = some s → activeList a = l → j < l.length →
      a.current_song_path = some (nth l j) →
      ∃ s2, (iterPrev dOk k a).sink = some s2 ∧
        activeList (iterPrev dOk k a) = l ∧
        (iterPrev dOk k a).current_song_path
          = some (nth l ((j + k * (l.length - 1)) % l.length)) := by
  intro k
  induction k with
  | zero =>
      intro a s j hs hal hj hcur
      simp only [iterPrev]
      refine ⟨s, hs, hal, ?_⟩
      rw [hcur]
      congr 1
      rw [Nat.zero_mul, Nat.add_zero, Nat.mod_eq_of_lt hj]
  | succ n ih =>
      intro a s j hs hal hj hcur
      have hlen : 0 < l.length := by omega
      have hj1 : (j + (l.length - 1)) % l.length < l.length := Nat.mod_lt _ hlen
      have hstep := previous_song_step dOk a s hs (hal ▸ hnd) j (hal ▸ hj)
        (by rw [hal]; exact hcur)
        (by rw [hal]; exact hdk _ (nth_mem l _ hj1))
      rw [hal] at hstep
      have hal2 : activeList (previous_song dOk a).1 = l := by
        rw [activeList_congr a (previous_song dOk a).1 hstep.1 hstep.2.1
          hstep.2.2.1]
        exact hal
      have hrec := ih (previous_song dOk a).1 ⟨1, false, s.pos⟩
        ((j + (l.length - 1)) % l.length)
        hstep.2.2.2.1 hal2 hj1 hstep.2.2.2.2.1
      obtain ⟨s2, hsink2, halrec, hcurrec⟩ := hrec
      refine ⟨s2, ?_, ?_, ?_⟩
      · simpa [iterPrev] using hsink2
      · simpa [iterPrev] using halrec
      · have harith : ((j + (l.length - 1)) % l.length + n * (l.length - 1))
            % l.length = (j + (n + 1) * (l.length - 1)) % l.length := by
          rw [Nat.mod_add_mod]
          congr 1
          ring_nf
        rw [show iterPrev dOk (n + 1) a = iterPrev dOk n (previous_song dOk a).1
              from rfl]
        rw [hcurrec, harith]

lemma next_song_empty (dOk : String → Bool) (a : AppState)
    (h : activeList a = []) : next_song dOk a = (a, true) := by
  simp [next_song, h]

lemma previous_song_empty (dOk : String → Bool) (a : AppState)
    (h : activeList a = []) : previous_song dOk a = (a, true) := by
  simp [previous_song, h]

lemma bindFind_lt (a : AppState) (j : Nat)
    (h : a.current_song_path.bind (fun p => myFindIdx p (activeList a))
      = some j) : j < (activeList a).length := by
  cases hc : a.current_song_path with
  | none => rw [hc] at h; simp at h
  | some p => rw [hc] at h; exact myFindIdx_lt_length p _ j h

lemma next_song_found (dOk : String → Bool) (a : AppState) (s : SinkState)
    (j : Nat) (hs : a.sink = some s) (hne : activeList a ≠ [])
    (hfind : a.current_song_path.bind (fun p => myFindIdx p (activeList a))
      = some j)
    (hdk : dOk (nth (activeList a) ((j + 1) % (activeList a).length)) = true) :
    (next_song dOk a).1.current_song_path
      = some (nth (activeList a) ((j + 1) % (activeList a).length)) ∧
    (next_song dOk a).1.selected_song_index
      = some ((j + 1) % (activeList a).length) := by
  have hempty := activeList_ne_nil_isEmpty a hne
  have hok := psbp_ok dOk (nth (activeList a) ((j + 1) % (activeList a).length))
      a s hs hdk
  simp only [nth] at hok ⊢
  simp only [next_song, hempty, Bool.false_eq_true, if_false, hfind]
  rw [if_pos hok.1]
  exact ⟨hok.2.1, rfl⟩

lemma previous_song_found (dOk : String → Bool) (a : AppState) (s : SinkState)
    (j : Nat) (hs : a.sink = some s) (hne : activeList a ≠ [])
    (hfind : a.current_song_path.bind (fun p => myFindIdx p (activeList a))
      = some j)
    (hdk : dOk (nth (activeList a)
      (if j = 0 then (activeList a).length - 1 else j - 1)) = true) :
    (previous_song dOk a).1.current_song_path
      = some (nth (activeList a)
          (if j = 0 then (activeList a).length - 1 else j - 1)) ∧
    (previous_song dOk a).1.selected_song_index
      = some (if j = 0 then (activeList a).length - 1 else j - 1) := by
  have hempty := activeList_ne_nil_isEmpty a hne
  have hok := psbp_ok dOk (nth (activeList a)
      (if j = 0 then (activeList a).length - 1 else j - 1)) a s hs hdk
  simp only [nth] at hok ⊢
  simp only [previous_song, hempty, Bool.false_eq_true, if_false, hfind]
  rw [if_pos hok.1]
  exact ⟨hok.2.1, rfl⟩

lemma next_song_absent (dOk : String → Bool) (a : AppState) (s : SinkState)
    (hs : a.sink = some s) (hne : activeList a ≠ [])
    (habs : a.current_song_path.bind (fun p => myFindIdx p (activeList a))
      = none)
    (hdk : dOk (nth (activeList a) 0) = true) :
    (next_song dOk a).1.current_song_path = some (nth (activeList a) 0) ∧
    (next_song dOk a).1.selected_song_index = some 0 := by
  have hempty := activeList_ne_nil_isEmpty a hne
  have hok := psbp_ok dOk (nth (activeList a) 0) a s hs hdk
  simp only [nth] at hok ⊢
  simp only [next_song, hempty, Bool.false_eq_true, if_false, habs]
  rw [if_pos hok.1]
  exact ⟨hok.2.1, rfl⟩

lemma previous_song_absent (dOk : String → Bool) (a : AppState) (s : SinkState)
    (hs : a.sink = some s) (hne : activeList a ≠ [])
    (habs : a.current_song_path.bind (fun p => myFindIdx p (activeList a))
      = none)
    (hdk : dOk (nth (activeList a) 0) = true) :
    (previous_song dOk a).1.current_song_path = some (nth (activeList a) 0) ∧
    (previous_song dOk a).1.selected_song_index = some 0 := by
  have hempty := activeList_ne_nil_isEmpty a hne
  have hok := psbp_ok dOk (nth (activeList a) 0) a s hs hdk
  simp only [nth] at hok ⊢
  simp only [previous_song, hempty, Bool.false_eq_true, if_false, habs]
  rw [if_pos hok.1]
  exact ⟨hok.2.1, rfl⟩

lemma next_song_success (dOk : String → Bool) (a : AppState) (s : SinkState)
    (hs : a.sink = some s) (hne : activeList a ≠ [])
    (hsucc : (next_song dOk a).2 = true) :
    ∃ i, i < (activeList a).length ∧
      (next_song dOk a).1.selected_song_index = some i ∧
      (next_song dOk a).1.current_song_path
        = some (nth (activeList a) i) := by
  have hempty := activeList_ne_nil_isEmpty a hne
  have hlen : 0 < (activeList a).length := List.length_pos.mpr hne
  cases hfind : a.current_song_path.bind
      (fun p => myFindIdx p (activeList a)) with
  | none =>
      have hflag : (next_song dOk a).2 = dOk ((activeList a).getD 0 "") := by
        simp only [next_song, hempty, Bool.false_eq_true, if_false, hfind]
        by_cases hr : (play_song_by_path dOk
            ((activeList a).getD 0 "") a).2 = true
        · rw [if_pos hr]
          have hf := psbp_success_flag dOk ((activeList a).getD 0 "") a s hs
          rw [hr] at hf
          exact hf
        · rw [if_neg hr]
          exact psbp_success_flag dOk ((activeList a).getD 0 "") a s hs
      rw [hflag] at hsucc
      have habs := next_song_absent dOk a s hs hne hfind hsucc
      exact ⟨0, hlen, habs.2, habs.1⟩
  | some j =>
      have hflag : (next_song dOk a).2
          = dOk ((activeList a).getD ((j + 1) % (activeList a).length) "") := by
        simp only [next_song, hempty, Bool.false_eq_true, if_false, hfind]
        by_cases hr : (play_song_by_path dOk
            ((activeList a).getD ((j + 1) % (activeList a).length) "") a).2
              = true
        · rw [if_pos hr]
          have hf := psbp_success_flag dOk
            ((activeList a).getD ((j + 1) % (activeList a).length) "") a s hs
          rw [hr] at hf
          exact hf
        · rw [if_neg hr]
          exact psbp_success_flag dOk
            ((activeList a).getD ((j + 1) % (activeList a).length) "") a s hs
      rw [hflag] at hsucc
      have hfound := next_song_found dOk a s j hs hne hfind hsucc
      exact ⟨(j + 1) % (activeList a).length, Nat.mod_lt _ hlen,
        hfound.2, hfound.1⟩

lemma previous_song_success (dOk : String → Bool) (a : AppState) (s : SinkState)
    (hs : a.sink = some s) (hne : activeList a ≠ [])
    (hsucc : (previous_song dOk a).2 = true) :
    ∃ i, i < (activeList a).length ∧
      (previous_song dOk a).1.selected_song_index = some i ∧
      (previous_song dOk a).1.current_song_path
        = some (nth (activeList a) i) := by
  have hempty := activeList_ne_nil_isEmpty a hne
  have hlen : 0 < (activeList a).length := List.length_pos.mpr hne
  cases hfind : a.current_song_path.bind
      (fun p => myFindIdx p (activeList a)) with
  | none =>
      have hflag : (previous_song dOk a).2
          = dOk ((activeList a).getD 0 "") := by
        simp only [previous_song, hempty, Bool.false_eq_true, if_false, hfind]
        by_cases hr : (play_song_by_path dOk
            ((activeList a).getD 0 "") a).2 = true
        · rw [if_pos hr]
          have hf := psbp_success_flag dOk ((activeList a).getD 0 "") a s hs
          rw [hr] at hf
          exact hf
        · rw [if_neg hr]
          exact psbp_success_flag dOk ((activeList a).getD 0 "") a s hs
      rw [hflag] at hsucc
      have habs := previous_song_absent dOk a s hs hne hfind hsucc
      exact ⟨0, hlen, habs.2, habs.1⟩
  | some j =>
      have hflag : (previous_song dOk a).2
          = dOk ((activeList a).getD
              (if j = 0 then (activeList a).length - 1 else j - 1) "") := by
        simp only [previous_song, hempty, Bool.false_eq_true, if_false, hfind]
        by_cases hr : (play_song_by_path dOk
            ((activeList a).getD
              (if j = 0 then (activeList a).length - 1 else j - 1) "") a).2
              = true
        · rw [if_pos hr]
          have hf := psbp_success_flag dOk
            ((activeList a).getD
              (if j = 0 then (activeList a).length - 1 else j - 1) "") a s hs
          rw [hr] at hf
          exact hf
        · rw [if_neg hr]
          exact psbp_success_flag dOk
            ((activeList a).getD
              (if j = 0 then (activeList a).length - 1 else j - 1) "") a s hs
      rw [hflag] at hsucc
      have hfound := previous_song_found dOk a s j hs hne hfind hsucc
      refine ⟨if j = 0 then (activeList a).length - 1 else j - 1, ?_,
        hfound.2, hfound.1⟩
      have hj := bindFind_lt a j hfind
      by_cases h0 : j = 0
      · rw [if_pos h0]
        omega
      · rw [if_neg h0]
        omega

lemma cursorOk_of_selected (b : AppState) (i : Nat)
    (hb : b.selected_song_index = some i)
    (hi : i < (activeList b).length) : cursorOk b = true := by
  unfold cursorOk
  rw [hb]
  simpa using hi

lemma cursorOk_of_none (b : AppState) (hb : b.selected_song_index = none)
    (hl : (activeList b).isEmpty = true) : cursorOk b = true := by
  unfold cursorOk
  rw [hb]
  exact hl

lemma play_pause_fields (a : AppState) :
    (play_pause a).input = a.input ∧
    (play_pause a).playlist = a.playlist ∧
    (play_pause a).search_results = a.search_results ∧
    (play_pause a).selected_song_index = a.selected_song_index := by
  cases hs : a.sink with
  | none => simp [play_pause, hs]
  | some s => by_cases hp : s.paused <;> simp [play_pause, hs, hp]

lemma seek_backward_fields (seekRes : Nat → Option String) (a : AppState) :
    (seek_backward seekRes a).state.input = a.input ∧
    (seek_backward seekRes a).state.playlist = a.playlist ∧
    (seek_backward seekRes a).state.search_results = a.search_results ∧
    (seek_backward seekRes a).state.selected_song_index
      = a.selected_song_index := by
  by_cases hsk : is_seekable a
  · cases hs : a.sink with
    | none => simp [seek_backward, hsk, hs]
    | some s =>
        cases hr : seekRes (if s.pos > 5 then s.pos - 5 else 0) with
        | none => simp [seek_backward, hsk, hs, hr]
        | some e =>
            by_cases he : strContains e "end of stream" <;>
              simp [seek_backward, hsk, hs, hr, he]
  · simp [seek_backward, hsk]

lemma seek_forward_fields (seekRes : Nat → Option String) (a : AppState) :
    (seek_forward seekRes a).state.input = a.input ∧
    (seek_forward seekRes a).state.playlist = a.playlist ∧
    (seek_forward seekRes a).state.search_results = a.search_results ∧
    (seek_forward seekRes a).state.selected_song_index
      = a.selected_song_index := by
  by_cases hsk : is_seekable a
  · cases hs : a.sink with
    | none => simp [seek_forward, hsk, hs]
    | some s =>
        cases hr : seekRes (s.pos + 5) with
        | none => simp [seek_forward, hsk, hs, hr]
        | some e =>
            by_cases he : strContains e "end of stream" <;>
              simp [seek_forward, hsk, hs, hr, he]
  · simp [seek_forward, hsk]

lemma play_selected_fields (dOk : String → Bool) (a : AppState) :
    (play_selected_song dOk a).1.input = a.input ∧
    (play_selected_song dOk a).1.playlist = a.playlist ∧
    (play_selected_song dOk a).1.search_results = a.search_results ∧
    (play_selected_song dOk a).1.selected_song_index
      = a.selected_song_index := by
  cases hsong : (if a.input = ""
      then a.selected_song_index.bind (fun i => a.playlist[i]?)
      else a.selected_song_index.bind (fun i => a.search_results[i]?)) with
  | none => simp [play_selected_song, hsong]
  | some p =>
      simp only [play_selected_song, hsong]
      exact psbp_preserves_lists dOk p a

lemma next_song_cursorOk (dOk : String → Bool) (a : AppState)
    (h : cursorOk a = true) : cursorOk (next_song dOk a).1 = true := by
  by_cases hl : (activeList a).isEmpty
  · have hnil : activeList a = [] := by
      cases he : activeList a with
      | nil => rfl
      | cons x t => rw [he] at hl; simp at hl
    rw [next_song_empty dOk a hnil]
    exact h
  · have hl' : (activeList a).isEmpty = false := by simpa using hl
    have hlen : 0 < (activeList a).length := by
      cases he : activeList a with
      | nil => rw [he] at hl'; simp at hl'
      | cons x t => simp [he]
    cases hfind : a.current_song_path.bind
        (fun p => myFindIdx p (activeList a)) with
    | none =>
        simp only [next_song, hl', Bool.false_eq_true, if_false, hfind]
        by_cases hr : (play_song_by_path dOk
            ((activeList a).getD 0 "") a).2 = true
        · rw [if_pos hr]
          have hpres := psbp_preserves_lists dOk ((activeList a).getD 0 "") a
          have halX : activeList (play_song_by_path dOk
              ((activeList a).getD 0 "") a).1 = activeList a :=
            activeList_congr a _ hpres.1 hpres.2.1 hpres.2.2.1
          refine cursorOk_of_selected _ 0 rfl ?_
          exact halX.symm ▸ hlen
        · rw [if_neg hr]
          have hpres := psbp_preserves_lists dOk ((activeList a).getD 0 "") a
          rw [cursorOk_congr a _ hpres.1 hpres.2.1 hpres.2.2.1 hpres.2.2.2]
          exact h
    | some j =>
        simp only [next_song, hl', Bool.false_eq_true, if_false, hfind]
        by_cases hr : (play_song_by_path dOk
            ((activeList a).getD ((j + 1) % (activeList a).length) "") a).2
              = true
        · rw [if_pos hr]
          have hpres := psbp_preserves_lists dOk
            ((activeList a).getD ((j + 1) % (activeList a).length) "") a
          have halX : activeList (play_song_by_path dOk
              ((activeList a).getD ((j + 1) % (activeList a).length) "") a).1
              = activeList a :=
            activeList_congr a _ hpres.1 hpres.2.1 hpres.2.2.1
          refine cursorOk_of_selected _ ((j + 1) % (activeList a).length)
            rfl ?_
          exact halX.symm ▸ Nat.mod_lt _ hlen
        · rw [if_neg hr]
          have hpres := psbp_preserves_lists dOk
            ((activeList a).getD ((j + 1) % (activeList a).length) "") a
          rw [cursorOk_congr a _ hpres.1 hpres.2.1 hpres.2.2.1 hpres.2.2.2]
          exact h

lemma previous_song_cursorOk (dOk : String → Bool) (a : AppState)
    (h : cursorOk a = true) : cursorOk (previous_song dOk a).1 = true := by
  by_cases hl : (activeList a).isEmpty
  · have hnil : activeList a = [] := by
      cases he : activeList a with
      | nil => rfl
      | cons x t => rw [he] at hl; simp at hl
    rw [previous_song_empty dOk a hnil]
    exact h
  · have hl' : (activeList a).isEmpty = false := by simpa using hl
    have hlen : 0 < (activeList a).length := by
      cases he : activeList a with
      | nil => rw [he] at hl'; simp at hl'
      | cons x t => simp [he]
    cases hfind : a.current_song_path.bind
        (fun p => myFindIdx p (activeList a)) with
    | none =>
        simp only [previous_song, hl', Bool.false_eq_true, if_false, hfind]
        by_cases hr : (play_song_by_path dOk
            ((activeList a).getD 0 "") a).2 = true
        · rw [if_pos hr]
          have hpres := psbp_preserves_lists dOk ((activeList a).getD 0 "") a
          have halX : activeList (play_song_by_path dOk
              ((activeList a).getD 0 "") a).1 = activeList a :=
            activeList_congr a _ hpres.1 hpres.2.1 hpres.2.2.1
          refine cursorOk_of_selected _ 0 rfl ?_
          exact halX.symm ▸ hlen
        · rw [if_neg hr]
          have hpres := psbp_preserves_lists dOk ((activeList a).getD 0 "") a
          rw [cursorOk_congr a _ hpres.1 hpres.2.1 hpres.2.2.1 hpres.2.2.2]
          exact h
    | some j =>
        have hpi : (if j = 0 then (activeList a).length - 1 else j - 1)
            < (activeList a).length := by
          by_cases h0 : j = 0
          · rw [if_pos h0]; omega
          · rw [if_neg h0]
            have := bindFind_lt a j hfind
            omega
        simp only [previous_song, hl', Bool.false_eq_true, if_false, hfind]
        by_cases hr : (play_song_by_path dOk
            ((activeList a).getD
              (if j = 0 then (activeList a).length - 1 else j - 1) "") a).2
              = true
        · rw [if_pos hr]
          have hpres := psbp_preserves_lists dOk
            ((activeList a).getD
              (if j = 0 then (activeList a).length - 1 else j - 1) "") a
          have halX : activeList (play_song_by_path dOk
              ((activeList a).getD
                (if j = 0 then (activeList a).length - 1 else j - 1) "") a).1
              = activeList a :=
            activeList_congr a _ hpres.1 hpres.2.1 hpres.2.2.1
          refine cursorOk_of_selected _
            (if j = 0 then (activeList a).length - 1 else j - 1) rfl ?_
          exact halX.symm ▸ hpi
        · rw [if_neg hr]
          have hpres := psbp_preserves_lists dOk
            ((activeList a).getD
              (if j = 0 then (activeList a).length - 1 else j - 1) "") a
          rw [cursorOk_congr a _ hpres.1 hpres.2.1 hpres.2.2.1 hpres.2.2.2]
          exact h

lemma select_next_cursorOk (a : AppState) (h : cursorOk a = true) :
    cursorOk (select_next a) = true := by
  by_cases hl : (activeList a).length = 0
  · simp only [select_next]
    rw [if_pos hl]
    exact h
  · have hlen : 0 < (activeList a).length := Nat.pos_of_ne_zero hl
    simp only [select_next]
    rw [if_neg hl]
    refine cursorOk_of_selected _ _ rfl ?_
    cases hsel : a.selected_song_index with
    | none => simp only [hsel]; exact hlen
    | some i => simp only [hsel]; exact Nat.mod_lt _ hlen

lemma select_previous_cursorOk (a : AppState) (h : cursorOk a = true) :
    cursorOk (select_previous a) = true := by
  by_cases hl : (activeList a).length = 0
  · simp only [select_previous]
    rw [if_pos hl]
    exact h
  · have hlen : 0 < (activeList a).length := Nat.pos_of_ne_zero hl
    simp only [select_previous]
    rw [if_neg hl]
    refine cursorOk_of_selected _ _ rfl ?_
    cases hsel : a.selected_song_index with
    | none => simp only [hsel]; exact hlen
    | some i =>
        simp only [hsel]
        by_cases h0 : i = 0
        · rw [if_pos h0]
          exact Nat.sub_lt hlen Nat.one_pos
        · rw [if_neg h0]
          have hi : i < (activeList a).length := by
            have hc := h
            unfold cursorOk at hc
            rw [hsel] at hc
            simpa using hc
          exact lt_trans (Nat.sub_lt (Nat.pos_of_ne_zero h0) Nat.one_pos) hi

lemma toLower_empty : ("" : String).toLower = "" := by
  show String.map Char.toLower "" = ""
  rw [String.map_eq]
  rfl

lemma filter_empty_needle (pl : List String) :
    pl.filter (fun p => strContains p.toLower ("" : String).toLower) = pl := by
  apply List.filter_eq_self.mpr
  intro p hp
  rw [toLower_empty]
  exact strContains_empty_needle p.toLower

lemma search_commit_cursorOk (a : AppState) :
    cursorOk { a with
      search_results :=
        a.playlist.filter (fun p => strContains p.toLower a.input.toLower)
      selected_song_index :=
        if (a.playlist.filter
            (fun p => strContains p.toLower a.input.toLower)).isEmpty
        then none else some 0
      inputMode := MInputMode.normal } = true := by
  by_cases hres : (a.playlist.filter
      (fun p => strContains p.toLower a.input.toLower)).isEmpty
  · rw [if_pos hres]
    simp only [cursorOk, activeList]
    by_cases hi : a.input = ""
    · rw [if_pos hi]
      rw [hi, filter_empty_needle a.playlist] at hres
      exact hres
    · rw [if_neg hi]
      exact hres
  · rw [if_neg hres]
    have hne : a.playlist.filter
        (fun p => strContains p.toLower a.input.toLower) ≠ [] := by
      intro h0
      rw [h0] at hres
      exact hres rfl
    simp only [cursorOk, activeList]
    by_cases hi : a.input = ""
    · rw [if_pos hi]
      rw [hi, filter_empty_needle a.playlist] at hne
      simpa using List.length_pos.mpr hne
    · rw [if_neg hi]
      simpa using List.length_pos.mpr hne

lemma dft_zero (n k : ℕ) (x : ℕ → ℂ) (hx : ∀ j, j < n → x j = 0) :
    dft n x k = 0 := by
  unfold dft
  apply Finset.sum_eq_zero
  intro j hj
  rw [hx j (Finset.mem_range.mp hj)]
  exact zero_mul _

lemma normalizeF_finite (v : RFloat) : (normalizeF v).finite = true := by
  cases v <;> rfl

lemma spectrumBin_finite (s : ℕ → ℝ) (k : ℕ) :
    (spectrumBin s k).finite = true :=
  normalizeF_finite _

lemma spectrumBin_silent (s : ℕ → ℝ) (hs : ∀ j, j < 1024 → s j = 0) (k : ℕ) :
    spectrumBin s k = RFloat.fin 0 := by
  have hw : ∀ j, j < 1024 → windowed s j = 0 := by
    intro j hj
    unfold windowed
    rw [hs j hj]
    simp
  have hd : dft 1024 (windowed s) k = 0 := dft_zero 1024 k _ hw
  unfold spectrumBin
  rw [hd]
  simp [rfLog10, rfScale20, normalizeF]

lemma publishFrame_silent (s : ℕ → ℝ) (hs : ∀ j, j < 1024 → s j = 0) :
    publishFrame s = List.replicate 512 (RFloat.fin 0) := by
  unfold publishFrame
  rw [List.eq_replicate_iff]
  constructor
  · simp
  · intro b hb
    simp only [List.mem_map, List.mem_range] at hb
    obtain ⟨k, hk, rfl⟩ := hb
    exact spectrumBin_silent s hs k

lemma publishFrame_getD (s : ℕ → ℝ) (k : ℕ) (hk : k < 512) :
    (publishFrame s).getD k (RFloat.fin 0) = spectrumBin s k := by
  unfold publishFrame
  rw [List.getD_eq_getElem?_getD, List.getElem?_map, List.getElem?_range hk]
  rfl

lemma spectrumBin_form (s : ℕ → ℝ) (k : ℕ) :
    (spectrumBin s k
        = RFloat.fin (20 * Real.logb 10
            (Complex.abs (dft 1024 (windowed s) k) * 2 / 1024)) ∧
      0 < Complex.abs (dft 1024 (windowed s) k) * 2 / 1024) ∨
    spectrumBin s k = RFloat.fin 0 := by
  unfold spectrumBin
  by_cases hpos : 0 < Complex.abs (dft 1024 (windowed s) k) * 2 / 1024
  · left
    refine ⟨?_, hpos⟩
    simp [rfLog10, hpos, rfScale20, normalizeF]
  · right
    have hge : 0 ≤ Complex.abs (dft 1024 (windowed s) k) * 2 / 1024 := by
      positivity
    have h0 : Complex.abs (dft 1024 (windowed s) k) * 2 / 1024 = 0 :=
      le_antisymm (not_lt.mp hpos) hge
    simp [rfLog10, h0, rfScale20, normalizeF]

/-- Claim C1 (refuted, code defect): after a successful play(s) the code
has joined the previous generation's StreamFeeder thread and made s the
current song, but the previous generation's SpectrumAnalyzer thread is
still alive: its JoinHandle was discarded at spawn (app.rs line 227) and
its loop has no exit condition, so it can never be cancelled or joined.
Evaluated on the concrete run play("a"); play("b"): the second call
returns success, current song is "b", the feeder generation list is
down to the new generation [1], yet both analyzer generations [1, 0]
are still live. -/
theorem C1_analyzer_thread_leak :
    playTwice.2 = true ∧
    playTwice.1.current_song_path = some "b" ∧
    playTwice.1.audioThreads = [1] ∧
    playTwice.1.analyzerThreads = [1, 0] ∧
    0 ∈ playTwice.1.analyzerThreads := by
  decide

/-- Claim C2 counterexample: on a decode failure the pipeline does not
stay in its previous state.  Starting from the state playing "a", a
failing play("b") reports the error, but the previously playing
generation has already been torn down: its feeder thread was joined
(audioThreads went from [0] to []) and the sink was stopped and
cleared, so the resulting state differs from the prior one. -/
theorem C2_counterexample_previous_generation_stopped :
    (play_song_by_path dOkOnlyA "b" playingA).2 = false ∧
    playingA.is_playing = true ∧
    playingA.audioThreads = [0] ∧
    (play_song_by_path dOkOnlyA "b" playingA).1.audioThreads = [] ∧
    (play_song_by_path dOkOnlyA "b" playingA).1 ≠ playingA := by
  decide

/-- Claim C2 (amended): if opening or decoding p fails, play_song_by_path
reports the failure to the caller, does not crash, spawns no
new-generation worker thread (the generation counter and the analyzer
set are unchanged and the set of live feeders only shrinks), and leaves
the playback metadata (current song, is_playing, playlist, search
results, cursor) unchanged; however the previous generation does not
keep running: the tracked feeder has been cancelled and joined and the
sink stopped and cleared before the open was attempted. -/
theorem C2_decode_failure_reported_no_new_generation (dOk : String → Bool)
    (p : String) (a : AppState) (s : SinkState) (hs : a.sink = some s)
    (hfail : dOk p = false) :
    (play_song_by_path dOk p a).2 = false ∧
    (play_song_by_path dOk p a).1.nextGen = a.nextGen ∧
    (play_song_by_path dOk p a).1.analyzerThreads = a.analyzerThreads ∧
    (∀ g ∈ (play_song_by_path dOk p a).1.audioThreads,
      g ∈ a.audioThreads) ∧
    (play_song_by_path dOk p a).1.current_song_path = a.current_song_path ∧
    (play_song_by_path dOk p a).1.is_playing = a.is_playing ∧
    (play_song_by_path dOk p a).1.playlist = a.playlist ∧
    (play_song_by_path dOk p a).1.search_results = a.search_results ∧
    (play_song_by_path dOk p a).1.selected_song_index
      = a.selected_song_index ∧
    (play_song_by_path dOk p a).1.audio_thread_handle = none ∧
    (play_song_by_path dOk p a).1.sink
      = some { s with queued := 0, paused := true } := by
  cases hah : a.audio_thread_handle with
  | none => simp [play_song_by_path, hs, hfail, hah]
  | some g0 =>
      simp only [play_song_by_path, hs, hfail, hah, Bool.false_eq_true,
        if_false]
      refine ⟨by simp, by simp, by simp, ?_, by simp, by simp, by simp,
        by simp, by simp, by simp, by simp⟩
      intro g hg
      exact List.mem_of_mem_filter hg

/-- Claim C2 witness: concrete instance of the amended claim at the
playing-"a" state with an undecodable "b". -/
theorem C2_decode_failure_witness :
    (play_song_by_path dOkOnlyA "b" playingA).2 = false ∧
    (play_song_by_path dOkOnlyA "b" playingA).1.current_song_path
      = playingA.current_song_path :=
  ⟨(C2_decode_failure_reported_no_new_generation dOkOnlyA "b" playingA
      ⟨1, false, 0⟩ (by decide) (by decide)).1,
   (C2_decode_failure_reported_no_new_generation dOkOnlyA "b" playingA
      ⟨1, false, 0⟩ (by decide) (by decide)).2.2.2.2.1⟩

/-- Claim C3 counterexample: an iteration of the main loop that observes
the drained state (queued audio 0 while is_playing is true) and no key
event leaves the state completely unchanged, whereas advance(next)
would move the current song from "a" to "b": run_app contains no
automatic advance. -/
theorem C3_counterexample_no_auto_advance :
    drainedA.is_playing = true ∧
    drainedA.sink = some ⟨0, false, 7⟩ ∧
    step dOkAll seekOk none drainedA = some drainedA ∧
    drainedA.current_song_path = some "a" ∧
    (next_song dOkAll drainedA).1.current_song_path = some "b" := by
  decide

/-- Claim C3 (amended): the main control loop performs no automatic
advance at all; an iteration without a key event is the identity on the
application state, even when the state is Playing and the output device
reports drained. -/
theorem C3_no_event_iteration_is_identity (dOk : String → Bool)
    (seekRes : Nat → Option String) (a : AppState) :
    step dOk seekRes none a = some a := rfl

/-- Claim C9 counterexample: with a song-less (Idle) controller whose
output sink exists, play_pause is not a no-op: it pauses the idle sink,
and a second press reports Playing with no song loaded. -/
theorem C9_counterexample_idle_not_noop :
    idleApp.current_song_path = none ∧
    play_pause idleApp ≠ idleApp ∧
    (play_pause (play_pause idleApp)).is_playing = true ∧
    (play_pause (play_pause idleApp)).current_song_path = none := by
  decide

/-- Claim C9 (amended): play_pause toggles between Playing and Paused
whenever an output sink exists, whether or not a song is loaded, and is
a no-op exactly when there is no sink (no audio device). -/
theorem C9_play_pause_toggle (a : AppState) :
    (a.sink = none → play_pause a = a) ∧
    (∀ s, a.sink = some s →
      (play_pause a).is_playing = s.paused ∧
      (play_pause a).sink = some { s with paused := !s.paused } ∧
      (play_pause a).current_song_path = a.current_song_path) := by
  constructor
  · intro h
    simp [play_pause, h]
  · intro s hs
    by_cases hp : s.paused <;> simp [play_pause, hs, hp]

/-- Claim C9 witness: the amended claim evaluated at the Idle state with
a sink and at a state without a sink. -/
theorem C9_play_pause_toggle_witness :
    (play_pause idleApp).is_playing = false ∧
    play_pause { idleApp with sink := none } = { idleApp with sink := none } :=
  ⟨((C9_play_pause_toggle idleApp).2 ⟨0, false, 0⟩ rfl).1,
   (C9_play_pause_toggle { idleApp with sink := none }).1 rfl⟩

/-- Claim C4: over the active selection list, next_song and previous_song
are a no-op on an empty list; when the now-playing path is not found in
the list they select and play index 0 regardless of direction; when it
is found at index j, next plays index (j+1) mod len and previous plays
len-1 for j = 0 and j-1 otherwise; and advancing len(active list) times
in either direction returns to the starting song (wrap-around law, for
a duplicate-free active list with an output sink and decodable
entries). -/
theorem C4_advance_wraparound (dOk : String → Bool) (a : AppState) :
    (activeList a = [] →
      next_song dOk a = (a, true) ∧ previous_song dOk a = (a, true)) ∧
    (∀ s : SinkState, a.sink = some s → activeList a ≠ [] →
      (a.current_song_path.bind (fun p => myFindIdx p (activeList a))
          = none →
        dOk (nth (activeList a) 0) = true →
        (next_song dOk a).1.current_song_path
            = some (nth (activeList a) 0) ∧
        (next_song dOk a).1.selected_song_index = some 0 ∧
        (previous_song dOk a).1.current_song_path
            = some (nth (activeList a) 0) ∧
        (previous_song dOk a).1.selected_song_index = some 0) ∧
      (∀ j, a.current_song_path.bind (fun p => myFindIdx p (activeList a))
          = some j →
        (dOk (nth (activeList a) ((j + 1) % (activeList a).length))
            = true →
          (next_song dOk a).1.current_song_path
            = some (nth (activeList a)
                ((j + 1) % (activeList a).length)) ∧
          (next_song dOk a).1.selected_song_index
            = some ((j + 1) % (activeList a).length)) ∧
        (dOk (nth (activeList a)
            (if j = 0 then (activeList a).length - 1 else j - 1)) = true →
          (previous_song dOk a).1.current_song_path
            = some (nth (activeList a)
                (if j = 0 then (activeList a).length - 1 else j - 1)) ∧
          (previous_song dOk a).1.selected_song_index
            = some (if j = 0 then (activeList a).length - 1
                    else j - 1)))) ∧
    (∀ s : SinkState, a.sink = some s →
      ∀ p, a.current_song_path = some p → p ∈ activeList a →
      (activeList a).Nodup → (∀ q ∈ activeList a, dOk q = true) →
      (iterNext dOk (activeList a).length a).current_song_path = some p ∧
      (iterPrev dOk (activeList a).length a).current_song_path = some p)
    := by
  refine ⟨?_, ?_, ?_⟩
  · intro h
    exact ⟨next_song_empty dOk a h, previous_song_empty dOk a h⟩
  · intro s hs hne
    refine ⟨?_, ?_⟩
    · intro habs hdk
      obtain ⟨hc1, hc2⟩ := next_song_absent dOk a s hs hne habs hdk
      obtain ⟨hc3, hc4⟩ := previous_song_absent dOk a s hs hne habs hdk
      exact ⟨hc1, hc2, hc3, hc4⟩
    · intro j hfind
      exact ⟨fun hdk => next_song_found dOk a s j hs hne hfind hdk,
        fun hdk => previous_song_found dOk a s j hs hne hfind hdk⟩
  · intro s hs p hcur hmem hnd hdk
    obtain ⟨j, hfj, hjl, hnthj⟩ := myFindIdx_of_mem p (activeList a) hmem
    have hcur' : a.current_song_path = some (nth (activeList a) j) := by
      rw [hcur, hnthj]
    obtain ⟨s2, hsink2, hal2, hN⟩ := iterNext_current dOk (activeList a)
      hnd hdk (activeList a).length a s j hs rfl hjl hcur'
    obtain ⟨s3, hsink3, hal3, hP⟩ := iterPrev_current dOk (activeList a)
      hnd hdk (activeList a).length a s j hs rfl hjl hcur'
    constructor
    · rw [hN]
      have hidx : (j + (activeList a).length) % (activeList a).length
          = j := by
        rw [Nat.add_mod_right, Nat.mod_eq_of_lt hjl]
      rw [hidx, hnthj]
    · rw [hP]
      have hidx : (j + (activeList a).length * ((activeList a).length - 1))
          % (activeList a).length = j := by
        rw [Nat.add_mul_mod_self_left, Nat.mod_eq_of_lt hjl]
      rw [hidx, hnthj]

/-- Claim C4 witness: the wrap-around law evaluated on the concrete
playing-"a" state with active list ["a", "b"]: two next steps (and two
previous steps) return to "a". -/
theorem C4_advance_wraparound_witness :
    (iterNext dOkAll 2 playingA).current_song_path = some "a" ∧
    (iterPrev dOkAll 2 playingA).current_song_path = some "a" :=
  (C4_advance_wraparound dOkAll playingA).2.2 ⟨1, false, 0⟩ (by decide)
    "a" (by decide) (by decide) (by decide) (by decide)

/-- Claim C10: after a successful next_song or previous_song on a
non-empty active list, the selection cursor equals the index of the
song that just started playing. -/
theorem C10_cursor_follows_playback (dOk : String → Bool) (a : AppState)
    (s : SinkState) (hs : a.sink = some s) (hne : activeList a ≠ []) :
    ((next_song dOk a).2 = true →
      ∃ i, i < (activeList a).length ∧
        (next_song dOk a).1.selected_song_index = some i ∧
        (next_song dOk a).1.current_song_path
          = some (nth (activeList a) i)) ∧
    ((previous_song dOk a).2 = true →
      ∃ i, i < (activeList a).length ∧
        (previous_song dOk a).1.selected_song_index = some i ∧
        (previous_song dOk a).1.current_song_path
          = some (nth (activeList a) i)) :=
  ⟨next_song_success dOk a s hs hne, previous_song_success dOk a s hs hne⟩

/-- Claim C10 witness: the concrete playing-"a" state; next_song succeeds
and leaves the cursor on the index of the now-playing song. -/
theorem C10_cursor_follows_playback_witness :
    ∃ i, i < (activeList playingA).length ∧
      (next_song dOkAll playingA).1.selected_song_index = some i ∧
      (next_song dOkAll playingA).1.current_song_path
        = some (nth (activeList playingA) i) :=
  (C10_cursor_follows_playback dOkAll playingA ⟨1, false, 0⟩ (by decide)
    (by decide)).1 (by decide)

/-- Claim C5 counterexample: the cursor invariant is reachable-violated
through the event loop.  From the fresh one-song state (cursor Some 0 on
playlist ["x"]), pressing e and then typing x makes the search input
non-empty, so the active list becomes the still-empty search results
while the cursor stays Some 0: a present cursor on an empty active
list. -/
theorem C5_counterexample_editing_breaks_cursor :
    cursorOk idleApp = true ∧
    handleKey dOkAll seekOk (.char 'e') idleApp = some editModeState ∧
    handleKey dOkAll seekOk (.char 'x') editModeState = some typedState ∧
    typedState.selected_song_index = some 0 ∧
    activeList typedState = [] ∧
    cursorOk typedState = false := by
  decide

/-- Claim C5 (amended): the selection-cursor invariant (valid index on a
non-empty active list, absent cursor on an empty one) is preserved by
every key event handled by the main loop except the editing-mode events
that mutate the search input (character insertion and backspace), which
change the active list without updating the cursor. -/
theorem C5_cursor_invariant_preserved (dOk : String → Bool)
    (seekRes : Nat → Option String) (k : MKeyCode) (a : AppState)
    (hinv : cursorOk a = true) (hk : editsInput a.inputMode k = false) :
    ∀ b, handleKey dOk seekRes k a = some b → cursorOk b = true := by
  intro b hb
  cases hm : a.inputMode with
  | normal =>
      cases k with
      | char c =>
          simp only [handleKey, hm] at hb
          by_cases he : c = 'e'
          · rw [if_pos he] at hb
            have hb' := Option.some.inj hb
            subst hb'
            exact hinv
          · rw [if_neg he] at hb
            by_cases hq : c = 'q'
            · rw [if_pos hq] at hb
              cases hb
            · rw [if_neg hq] at hb
              by_cases hp : c = 'p'
              · rw [if_pos hp] at hb
                have hb' := Option.some.inj hb
                subst hb'
                have hf := play_pause_fields a
                rw [cursorOk_congr a _ hf.1 hf.2.1 hf.2.2.1 hf.2.2.2]
                exact hinv
              · rw [if_neg hp] at hb
                by_cases hn : c = 'n'
                · rw [if_pos hn] at hb
                  have hb' := Option.some.inj hb
                  subst hb'
                  exact next_song_cursorOk dOk a hinv
                · rw [if_neg hn] at hb
                  by_cases hbk : c = 'b'
                  · rw [if_pos hbk] at hb
                    have hb' := Option.some.inj hb
                    subst hb'
                    exact previous_song_cursorOk dOk a hinv
                  · rw [if_neg hbk] at hb
                    by_cases hsp : c = ' '
                    · rw [if_pos hsp] at hb
                      have hb' := Option.some.inj hb
                      subst hb'
                      have hf := play_selected_fields dOk a
                      rw [cursorOk_congr a _ hf.1 hf.2.1 hf.2.2.1 hf.2.2.2]
                      exact hinv
                    · rw [if_neg hsp] at hb
                      by_cases hc : c = 'c'
                      · rw [if_pos hc] at hb
                        have hb' := Option.some.inj hb
                        subst hb'
                        by_cases hpl : a.playlist.isEmpty
                        · rw [if_pos hpl]
                          refine cursorOk_of_none _ rfl ?_
                          simpa [activeList] using hpl
                        · rw [if_neg hpl]
                          have hne : a.playlist ≠ [] := by
                            intro h0
                            rw [h0] at hpl
                            exact hpl rfl
                          refine cursorOk_of_selected _ 0 rfl ?_
                          simpa [activeList]
                            using List.length_pos.mpr hne
                      · rw [if_neg hc] at hb
                        have hb' := Option.some.inj hb
                        subst hb'
                        exact hinv
      | down =>
          simp only [handleKey, hm] at hb
          have hb' := Option.some.inj hb
          subst hb'
          exact select_next_cursorOk a hinv
      | up =>
          simp only [handleKey, hm] at hb
          have hb' := Option.some.inj hb
          subst hb'
          exact select_previous_cursorOk a hinv
      | left =>
          simp only [handleKey, hm] at hb
          have hb' := Option.some.inj hb
          subst hb'
          have hf := seek_backward_fields seekRes a
          rw [cursorOk_congr a _ hf.1 hf.2.1 hf.2.2.1 hf.2.2.2]
          exact hinv
      | right =>
          simp only [handleKey, hm] at hb
          have hb' := Option.some.inj hb
          subst hb'
          have hf := seek_forward_fields seekRes a
          rw [cursorOk_congr a _ hf.1 hf.2.1 hf.2.2.1 hf.2.2.2]
          exact hinv
      | enter =>
          simp only [handleKey, hm] at hb
          have hb' := Option.some.inj hb
          subst hb'
          exact hinv
      | backspace =>
          simp only [handleKey, hm] at hb
          have hb' := Option.some.inj hb
          subst hb'
          exact hinv
      | esc =>
          simp only [handleKey, hm] at hb
          have hb' := Option.some.inj hb
          subst hb'
          exact hinv
      | other =>
          simp only [handleKey, hm] at hb
          have hb' := Option.some.inj hb
          subst hb'
          exact hinv
  | editing =>
      cases k with
      | char c =>
          rw [hm] at hk
          simp [editsInput] at hk
      | backspace =>
          rw [hm] at hk
          simp [editsInput] at hk
      | enter =>
          simp only [handleKey, hm] at hb
          have hb' := Option.some.inj hb
          subst hb'
          exact search_commit_cursorOk a
      | esc =>
          simp only [handleKey, hm] at hb
          have hb' := Option.some.inj hb
          subst hb'
          exact hinv
      | down =>
          simp only [handleKey, hm] at hb
          have hb' := Option.some.inj hb
          subst hb'
          exact hinv
      | up =>
          simp only [handleKey, hm] at hb
          have hb' := Option.some.inj hb
          subst hb'
          exact hinv
      | left =>
          simp only [handleKey, hm] at hb
          have hb' := Option.some.inj hb
          subst hb'
          exact hinv
      | right =>
          simp only [handleKey, hm] at hb
          have hb' := Option.some.inj hb
          subst hb'
          exact hinv
      | other =>
          simp only [handleKey, hm] at hb
          have hb' := Option.some.inj hb
          subst hb'
          exact hinv

/-- Claim C5 witness: preservation applied at the fresh one-song state
under the p key. -/
theorem C5_cursor_invariant_preserved_witness :
    cursorOk (play_pause idleApp) = true :=
  C5_cursor_invariant_preserved dOkAll seekOk (.char 'p') idleApp
    (by decide) (by decide) (play_pause idleApp) (by decide)

/-- Claim C6: for a full 1024-sample analysis window, every published bin
is either exactly the finite value 20 * log10(|X| * 2 / N) of its FFT
output X (when that expression is defined and finite), or 0 (when the
dB computation produced NaN or an infinity, normalised away); and the
all-zero (silent) window publishes a frame of 512 exact zeros, never
NaNs. -/
theorem C6_spectrum_bins (s : ℕ → ℝ) :
    (∀ k, k < 512 →
      ((publishFrame s).getD k (RFloat.fin 0)
          = RFloat.fin (20 * Real.logb 10
              (Complex.abs (dft 1024 (windowed s) k) * 2 / 1024)) ∧
        0 < Complex.abs (dft 1024 (windowed s) k) * 2 / 1024) ∨
      (publishFrame s).getD k (RFloat.fin 0) = RFloat.fin 0) ∧
    ((∀ j, j < 1024 → s j = 0) →
      publishFrame s = List.replicate 512 (RFloat.fin 0)) := by
  constructor
  · intro k hk
    rw [publishFrame_getD s k hk]
    exact spectrumBin_form s k
  · intro hs
    exact publishFrame_silent s hs

/-- Claim C6 witness: the silent window, and bin 0 of its frame. -/
theorem C6_spectrum_bins_witness :
    publishFrame (fun _ => 0) = List.replicate 512 (RFloat.fin 0) ∧
    (((publishFrame (fun _ => 0)).getD 0 (RFloat.fin 0)
        = RFloat.fin (20 * Real.logb 10
            (Complex.abs (dft 1024 (windowed (fun _ => 0)) 0) * 2 / 1024)) ∧
      0 < Complex.abs (dft 1024 (windowed (fun _ => 0)) 0) * 2 / 1024) ∨
     (publishFrame (fun _ => 0)).getD 0 (RFloat.fin 0) = RFloat.fin 0) :=
  ⟨(C6_spectrum_bins (fun _ => 0)).2 (fun j _ => rfl),
   (C6_spectrum_bins (fun _ => 0)).1 0 (by decide)⟩

/-- Claim C7: every frame that can be stored in the shared spectrogram
buffer (the initial all-zero frame from App::new and every frame a
generation's analyzer publishes under the mutex) has length exactly
512 = window size / 2 and holds only finite values; frames are replaced
wholesale under the lock, so these are exactly the frames a reader can
observe. -/
theorem C7_frames_wellformed (f : List RFloat) (h : StoredFrame f) :
    f.length = 512 ∧ ∀ v ∈ f, v.finite = true := by
  cases h with
  | initial =>
      refine ⟨by rw [List.length_replicate], ?_⟩
      intro v hv
      rw [List.eq_of_mem_replicate hv]
      rfl
  | publish s =>
      refine ⟨by simp [publishFrame], ?_⟩
      intro v hv
      simp only [publishFrame, List.mem_map, List.mem_range] at hv
      obtain ⟨k, hk, rfl⟩ := hv
      exact spectrumBin_finite s k

/-- Claim C7 witness: the initial frame. -/
theorem C7_frames_wellformed_witness :
    (List.replicate 512 (RFloat.fin 0)).length = 512 ∧
    ∀ v ∈ List.replicate 512 (RFloat.fin 0), RFloat.finite v = true :=
  C7_frames_wellformed _ StoredFrame.initial

/-- Claim C8: seek_backward attempts a seek only when the sink exists and
its buffer is non-empty (is_seekable); the attempted target is
current - 5 seconds when current > 5 and exactly 0 otherwise; a failure
whose message contains "end of stream" is swallowed silently and any
other failure is surfaced. -/
theorem C8_seek_backward_guard_clamp_errors (seekRes : Nat → Option String)
    (a : AppState) :
    (is_seekable a = false → seek_backward seekRes a = ⟨a, none, none⟩) ∧
    (∀ s, a.sink = some s → is_seekable a = true →
      (seek_backward seekRes a).target
        = some (if s.pos > 5 then s.pos - 5 else 0) ∧
      (s.pos ≤ 5 → (seek_backward seekRes a).target = some 0) ∧
      (seekRes (if s.pos > 5 then s.pos - 5 else 0) = none →
        (seek_backward seekRes a).surfaced = none) ∧
      (∀ e, seekRes (if s.pos > 5 then s.pos - 5 else 0) = some e →
        (seek_backward seekRes a).surfaced
          = (if strContains e "end of stream" then none else some e))) := by
  constructor
  · intro h
    simp [seek_backward, h]
  · intro s hs hsk
    cases hr : seekRes (if s.pos > 5 then s.pos - 5 else 0) with
    | none =>
        refine ⟨?_, fun hle => ?_, fun _ => ?_, fun e he => ?_⟩
        · simp [seek_backward, hsk, hs, hr]
        · have hng : ¬ s.pos > 5 := by omega
          rw [if_neg hng] at hr
          simp [seek_backward, hsk, hs, hr, hng]
        · simp [seek_backward, hsk, hs, hr]
        · exact Option.noConfusion he
    | some e0 =>
        refine ⟨?_, fun hle => ?_, fun hn => ?_, fun e he => ?_⟩
        · by_cases hc : strContains e0 "end of stream" <;>
            simp [seek_backward, hsk, hs, hr, hc]
        · have hng : ¬ s.pos > 5 := by omega
          rw [if_neg hng] at hr
          by_cases hc : strContains e0 "end of stream" <;>
            simp [seek_backward, hsk, hs, hr, hc, hng]
        · exact Option.noConfusion hn
        · have he' := Option.some.inj he
          subst he'
          by_cases hc : strContains e0 "end of stream" <;>
            simp [seek_backward, hsk, hs, hr, hc]

/-- Claim C8 witness: a seekable sink at position 3 with a succeeding
seek oracle: the target clamps to exactly 0 and nothing is surfaced;
plus the guard on the non-seekable fresh state. -/
theorem C8_seek_backward_witness :
    (seek_backward seekOk seekableApp).target = some 0 ∧
    (seek_backward seekOk seekableApp).surfaced = none ∧
    seek_backward seekOk idleApp = ⟨idleApp, none, none⟩ :=
  ⟨((C8_seek_backward_guard_clamp_errors seekOk seekableApp).2
      ⟨1, false, 3⟩ (by decide) (by decide)).2.1 (by decide),
   ((C8_seek_backward_guard_clamp_errors seekOk seekableApp).2
      ⟨1, false, 3⟩ (by decide) (by decide)).2.2.1 (by decide),
   (C8_seek_backward_guard_clamp_errors seekOk idleApp).1 (by decide)⟩
